import Mathlib

/-!
Verification of `invenio-jsonschemas` (files `ext.py` and `views.py`).

The development shallowly embeds:

* the path ↔ URL mapper of `InvenioJSONSchemasState` (`path_to_url`,
  `url_to_path`), including the werkzeug routing rule
  `'{JSONSCHEMAS_ENDPOINT}/<path:path>'` with `host_matching=True`,
  the URL build step (which percent-encodes the path value with the
  safe set `/:`, as werkzeug's converter `to_url` does in the
  werkzeug generation this 2015-2018 code targets) and the match step
  (a plain regex match on the path returned by `urlsplit`, with no
  percent-decoding);
* `InvenioJSONSchemasState.get_schema`, whose `lru_cache`-decorated
  inner function `wrapped` is defined anew on every call, so each call
  runs `wrapped` against a fresh, empty cache;
* the reference-inlining pass `JsonRef.replace_refs` of the external
  `jsonref` library (modelled from the specification, see `replaceRefs`);
* the query-parameter handling of the blueprint view in `views.py`;
* `InvenioJSONSchemas.init_config` and
  `InvenioJSONSchemasState.list_schemas`.

Strings are modelled as `List Char` wherever character-level reasoning
is needed; JSON documents as the inductive type `Json`.
-/

namespace InvenioJsonschemas

/-- JSON-compatible document tree: the `RawSchema`/`ResolvedSchema`
value space of the system (Python dict/list/str/int/bool/None). -/
inductive Json where
  | null : Json
  | bool (b : Bool) : Json
  | num (n : Int) : Json
  | str (s : String) : Json
  | arr (items : List Json) : Json
  | obj (fields : List (String × Json)) : Json

/-- First-match association-list lookup, the model of Python dict
indexing used for configuration dictionaries, loader tables and caches. -/
def lookupKV {κ α : Type} [DecidableEq κ] : List (κ × α) → κ → Option α
  | [], _ => none
  | (k2, v) :: rest, k => if k2 = k then some v else lookupKV rest k

/-- The static routing configuration read from `app.config` in
`InvenioJSONSchemasState.__init__` and `path_to_url`:
`JSONSCHEMAS_ENDPOINT`, `JSONSCHEMAS_HOST`, `JSONSCHEMAS_URL_SCHEME`. -/
structure MapperCfg where
  endpoint : List Char
  host : List Char
  scheme : List Char

/-- Characters werkzeug's `url_quote` leaves unescaped when building a
URL from a `<path:path>` value: RFC 3986 unreserved characters plus the
default safe set `/:` of the converter's `to_url`. -/
def isSafeChar (c : Char) : Bool :=
  c.isAlpha || c.isDigit || c = '-' || c = '.' || c = '_' || c = '~' || c = '/' || c = ':'

/-- Uppercase hexadecimal digit, as produced by percent-encoding. -/
def hexDigit (n : Nat) : Char :=
  if n = 0 then '0' else if n = 1 then '1' else if n = 2 then '2'
  else if n = 3 then '3' else if n = 4 then '4' else if n = 5 then '5'
  else if n = 6 then '6' else if n = 7 then '7' else if n = 8 then '8'
  else if n = 9 then '9' else if n = 10 then 'A' else if n = 11 then 'B'
  else if n = 12 then 'C' else if n = 13 then 'D' else if n = 14 then 'E'
  else 'F'

/-- UTF-8 byte sequence of a character (percent-encoding operates on
the UTF-8 encoding of the string, as in werkzeug). -/
def utf8Bytes (c : Char) : List Nat :=
  let n := c.toNat
  if n < 128 then [n]
  else if n < 2048 then [192 + n / 64, 128 + n % 64]
  else if n < 65536 then [224 + n / 4096, 128 + (n / 64) % 64, 128 + n % 64]
  else [240 + n / 262144, 128 + (n / 4096) % 64, 128 + (n / 64) % 64, 128 + n % 64]

/-- Percent-encoding of a single non-safe character. -/
def percentEncodeChar (c : Char) : List Char :=
  (utf8Bytes c).flatMap fun b => ['%', hexDigit (b / 16), hexDigit (b % 16)]

/-- werkzeug `url_quote` with safe set `/:`, applied by `Rule.build` to
the `<path:path>` converter value. -/
def urlQuote (s : List Char) : List Char :=
  s.flatMap fun c => if isSafeChar c then [c] else percentEncodeChar c

/-- `InvenioJSONSchemasState.path_to_url`: werkzeug
`url_map.bind(host, url_scheme=scheme).build('schema', values=path,
force_external=True)` produces `scheme://host{endpoint}/{quoted path}`. -/
def path_to_url (cfg : MapperCfg) (path : List Char) : List Char :=
  cfg.scheme ++ [':', '/', '/'] ++ cfg.host ++ cfg.endpoint ++ ['/'] ++ urlQuote path

/-- Characters allowed in the scheme component by `urlsplit`. -/
def isSchemeChar (c : Char) : Bool :=
  c.isAlpha || c.isDigit || c = '+' || c = '-' || c = '.'

/-- The exception `urlsplit` can raise: `ValueError("Invalid IPv6 URL")`
when the netloc contains an unpaired square bracket. -/
inductive PyErr where
  | invalidIPv6Url : PyErr
deriving DecidableEq

/-- Result of `urllib`'s `urlsplit`: scheme, netloc, path (the query and
fragment components are dropped, `url_to_path` never reads them). -/
structure SplitURL where
  scheme : List Char
  netloc : List Char
  upath : List Char
deriving DecidableEq

deriving instance DecidableEq for Except

/-- Scheme-splitting step of `urlsplit`: if the text before the first
`:` is a nonempty run of scheme characters, it is the scheme and the
remainder follows the colon; otherwise there is no scheme. -/
def splitScheme (url : List Char) : List Char × List Char :=
  let pre := url.takeWhile (fun c => c ≠ ':')
  if pre.length < url.length && !pre.isEmpty && pre.all isSchemeChar then
    (pre, url.drop (pre.length + 1))
  else ([], url)

/-- Netloc-splitting step of `urlsplit`: after `//`, the netloc extends
to the next `/`, `?` or `#`. -/
def splitNetloc (rest : List Char) : List Char × List Char :=
  match rest with
  | '/' :: '/' :: r =>
      (r.takeWhile (fun c => c ≠ '/' && c ≠ '?' && c ≠ '#'),
       r.dropWhile (fun c => c ≠ '/' && c ≠ '?' && c ≠ '#'))
  | _ => ([], rest)

/-- `urlsplit` as used by `url_to_path` (scheme, netloc and path
components; the path stops at a query or fragment delimiter). After
splitting the netloc, `urlsplit` raises `ValueError("Invalid IPv6
URL")` when the netloc contains a `[` without a `]` or a `]` without a
`[` (when no netloc is parsed the check is on the empty string and
never fires, as in the source). -/
def urlsplitModel (url : List Char) : Except PyErr SplitURL :=
  let s := splitScheme url
  let n := splitNetloc s.2
  if (decide ('[' ∈ n.1) && !decide (']' ∈ n.1))
      || (decide (']' ∈ n.1) && !decide ('[' ∈ n.1)) then
    .error .invalidIPv6Url
  else
    .ok ⟨s.1, n.1, n.2.takeWhile (fun c => c ≠ '?' && c ≠ '#')⟩

/-- The compiled regex of the werkzeug rule
`'{endpoint}/<path:path>'` (a leaf rule with strict slashes):
`^{endpoint}/(?P<path>[^/].*?)$`. It matches iff the URL path is the
endpoint, a slash, and a nonempty remainder not starting with `/`;
the captured remainder is returned verbatim (no percent-decoding). -/
def matchRule (endpoint upath : List Char) : Option (List Char) :=
  if upath.take (endpoint.length + 1) = endpoint ++ ['/'] then
    if !(upath.drop (endpoint.length + 1)).isEmpty
        && (upath.drop (endpoint.length + 1)).head? ≠ some '/' then
      some (upath.drop (endpoint.length + 1))
    else none
  else none

/-- `InvenioJSONSchemasState.url_to_path`: `urlsplit` the URL — this
call sits outside the `try`, so a `ValueError` from `urlsplit`
propagates out of `url_to_path` (the `except` clause catches only
werkzeug's `HTTPException`) — then bind the map to the URL's netloc
(with `host_matching=True` the netloc must equal the configured host
exactly) and match the path against the rule; any `HTTPException` (no
match) yields `None`. -/
def url_to_path (cfg : MapperCfg) (url : List Char) :
    Except PyErr (Option (List Char)) :=
  match urlsplitModel url with
  | .error e => .error e
  | .ok parts =>
    .ok (if parts.netloc = cfg.host then matchRule cfg.endpoint parts.upath else none)

/-- The set of path values accepted by the routing rule's
`<path:path>` converter (regex `[^/].*?`): nonempty, no leading slash. -/
def acceptedPath (p : List Char) : Bool :=
  !p.isEmpty && p.head? ≠ some '/'

/-- A reference node: a JSON object whose `$ref` member is a string
(the reference URL). -/
def refOf : Json → Option String
  | .obj fields =>
    match lookupKV fields "$ref" with
    | some (.str u) => some u
    | _ => none
  | _ => none

/-- Number of loader-table URLs not yet on the active expansion path;
first component of the termination measure of `replaceRefs`. -/
def countAvail (table : List (String × Json)) (active : List String) : Nat :=
  ((table.map Prod.fst).filter (fun u => decide (¬ u ∈ active))).length

theorem length_filter_le_of_imp {α : Type} {p q : α → Bool}
    (h : ∀ x, q x = true → p x = true) :
    ∀ l : List α, (l.filter q).length ≤ (l.filter p).length := by
  intro l
  induction l with
  | nil => simp
  | cons x xs ih =>
    by_cases hq : q x = true
    · simp [List.filter_cons, hq, h x hq]
      omega
    · simp only [Bool.not_eq_true] at hq
      by_cases hp : p x = true
      · simp [List.filter_cons, hq, hp]
        omega
      · simp only [Bool.not_eq_true] at hp
        simp [List.filter_cons, hq, hp, ih]

theorem length_filter_lt_of_mem {α : Type} {p q : α → Bool}
    (h : ∀ x, q x = true → p x = true) {a : α} {l : List α}
    (ha : a ∈ l) (hpa : p a = true) (hqa : q a = false) :
    (l.filter q).length < (l.filter p).length := by
  induction l with
  | nil => cases ha
  | cons x xs ih =>
    rcases List.mem_cons.mp ha with rfl | hmem
    · have hq : q a = false := hqa
      simp [List.filter_cons, hq, hpa]
      exact Nat.lt_succ_of_le (length_filter_le_of_imp h xs)
    · by_cases hq : q x = true
      · simp [List.filter_cons, hq, h x hq]
        exact ih hmem
      · simp only [Bool.not_eq_true] at hq
        by_cases hp : p x = true
        · simp [List.filter_cons, hq, hp]
          exact Nat.lt_succ_of_lt (ih hmem)
        · simp only [Bool.not_eq_true] at hp
          simp [List.filter_cons, hq, hp]
          exact ih hmem

theorem mem_map_fst_of_lookupKV {κ α : Type} [DecidableEq κ]
    {l : List (κ × α)} {k : κ} {v : α}
    (h : lookupKV l k = some v) : k ∈ l.map Prod.fst := by
  induction l with
  | nil => simp [lookupKV] at h
  | cons kv rest ih =>
    by_cases he : kv.1 = k
    · simp [he]
    · rw [show kv = (kv.1, kv.2) from rfl, lookupKV, if_neg he] at h
      simp [ih h]

theorem countAvail_cons_lt {table : List (String × Json)} {active : List String}
    {url : String} (h1 : url ∈ table.map Prod.fst) (h2 : ¬ url ∈ active) :
    countAvail table (url :: active) < countAvail table active := by
  unfold countAvail
  refine length_filter_lt_of_mem ?_ h1 ?_ ?_
  · intro x hx
    simp only [decide_eq_true_eq] at hx ⊢
    intro hax
    exact hx (List.mem_cons_of_mem _ hax)
  · simpa using h2
  · simp

/-- Modelled from the spec: `JsonRef.replace_refs` of the external
`jsonref` library (invoked by `get_schema` when `with_refs` is set) is
not part of this repository, so inline-mode resolution is modelled from
§4.3 of the specification: walk the document tree; a reference node is
replaced by the dereferenced subtree, recursively; a reference whose
URL is already being expanded on the current resolution path is left as
the unresolved reference marker. The loader is a finite table of
URL-addressed documents, references are looked up by their literal URL
(relative-reference joining against the base URL is not modelled), and
a reference whose URL the loader does not know is likewise left in
place as a marker. -/
def replaceRefs (table : List (String × Json)) (active : List String) : Json → Json
  | .null => .null
  | .bool b => .bool b
  | .num n => .num n
  | .str s => .str s
  | .arr items => .arr (items.attach.map fun ⟨x, _⟩ => replaceRefs table active x)
  | .obj fields =>
    match refOf (.obj fields) with
    | some url =>
      if hmem : url ∈ active then .obj fields
      else
        match hl : lookupKV table url with
        | some target => replaceRefs table (url :: active) target
        | none => .obj fields
    | none =>
      .obj (fields.attach.map fun ⟨f, _⟩ => (f.1, replaceRefs table active f.2))
termination_by j => (countAvail table active, sizeOf j)
decreasing_by
  · apply Prod.Lex.right
    have hs := List.sizeOf_lt_of_mem (by assumption : x ∈ items)
    simp only [Json.arr.sizeOf_spec]
    omega
  · apply Prod.Lex.left
    exact countAvail_cons_lt (mem_map_fst_of_lookupKV hl) hmem
  · apply Prod.Lex.right
    have hs := List.sizeOf_lt_of_mem (by assumption : f ∈ fields)
    have hf : sizeOf f.2 < sizeOf f := by
      rw [show f = (f.1, f.2) from rfl]
      simp only [Prod.mk.sizeOf_spec]
      omega
    simp only [Json.obj.sizeOf_spec]
    omega

/-- String-valued wrapper of `path_to_url`, the URL handed to the
loader in `get_schema`. -/
def path_to_url_s (cfg : MapperCfg) (p : String) : String :=
  ⟨path_to_url cfg p.data⟩

/-- Outcomes `get_schema` can raise. `abort404` is the werkzeug
`NotFound` raised by `abort(404)`; `jsonSchemaNotFound` is the
`invenio_jsonschemas.errors.JSONSchemaNotFound` exception raised by the
loader (named so the theorems can state which of the two an observer
sees). -/
inductive SchemaErr where
  | abort404 : SchemaErr
  | jsonSchemaNotFound : SchemaErr
deriving DecidableEq

/-- Memoization key of the inner `wrapped` function: the `lru_cache`
key `(self, path, with_refs, resolved, user)` with `self` fixed. -/
structure Key where
  path : String
  withRefs : Bool
  resolved : Bool
  user : String
deriving DecidableEq

/-- Result of one call of `wrapped`: the outcome, the cache as left
behind by the call, and how many times the loader instance
`self.loader_cls()` was called on the schema URL (the `schema =
self.loader_cls()(self.path_to_url(path))` line; loads that `jsonref`
performs lazily while replacing references are not counted). -/
structure WrappedOut where
  result : Except SchemaErr Json
  cache : List (Key × Json)
  loaderCalls : Nat

/-- The application state of `InvenioJSONSchemasState`: routing
configuration, the loader (`loader_cls` — a deterministic table from
URL to document, a missing entry meaning the loader raises
`JSONSchemaNotFound`) and the resolver (`resolver_cls`). -/
structure AppModel where
  cfg : MapperCfg
  loaderTable : List (String × Json)
  resolver : Json → Json

/-- The `lru_cache`-decorated inner function `wrapped` of
`get_schema`: on a cache hit return the memoized document without
touching the loader; on a miss, load the document at
`path_to_url(path)` — a loader failure (`JSONSchemaNotFound`) is caught
and turned into `abort(404)` — then optionally replace references
and/or apply the resolver, and memoize the result. -/
def wrapped (app : AppModel) (cache : List (Key × Json)) (k : Key) : WrappedOut :=
  match lookupKV cache k with
  | some v => ⟨.ok v, cache, 0⟩
  | none =>
    match lookupKV app.loaderTable (path_to_url_s app.cfg k.path) with
    | none => ⟨.error .abort404, cache, 1⟩
    | some schema =>
      let s1 := if k.withRefs then replaceRefs app.loaderTable [] schema else schema
      let s2 := if k.resolved then app.resolver s1 else s1
      ⟨.ok s2, (k, s2) :: cache, 1⟩

/-- `InvenioJSONSchemasState.get_schema`: defines the
`lru_cache`-decorated `wrapped` anew in its own body — so the
memoization cache `wrapped` consults is the empty one — and calls it
once with `(path, with_refs, resolved, current_user)`. The returned
pair is the outcome together with the number of loader calls this
invocation performed. -/
def get_schema (app : AppModel) (path : String) (withRefs resolved : Bool)
    (user : String) : Except SchemaErr Json × Nat :=
  let out := wrapped app [] ⟨path, withRefs, resolved, user⟩
  (out.result, out.loaderCalls)

/-- `InvenioJSONSchemasState.list_schemas` (deprecated in the source):
returns the empty list. -/
def list_schemas (_app : AppModel) : List String :=
  []

/-- Digit-run parser backing `parseInt`. -/
def parseDigits (s : List Char) : Option Nat :=
  if !s.isEmpty && s.all Char.isDigit then
    some (s.foldl (fun a c => a * 10 + (c.toNat - 48)) 0)
  else none

/-- Python `int(str)` as used by Flask's `type=int` coercion: an
optional sign followed by digits; anything else fails. -/
def parseInt (s : String) : Option Int :=
  match s.data with
  | '+' :: rest => (parseDigits rest).map Int.ofNat
  | '-' :: rest => (parseDigits rest).map fun n => -(n : Int)
  | l => (parseDigits l).map Int.ofNat

/-- Python truthiness of the integer-or-`None` values the view
computes: `None` and `0` are falsy. -/
def truthy : Option Int → Bool
  | none => false
  | some n => n != 0

/-- Flask `request.args.get(name, default, type=int)`: the default when
the parameter is absent, the coerced value when it parses as an
integer, and the default again when coercion fails. The configured
default is passed through uncoerced. -/
def flask_get_arg (param : Option String) (dflt : Option Int) : Option Int :=
  match param with
  | none => dflt
  | some s =>
    match parseInt s with
    | some n => some n
    | none => dflt

/-- Python `or` on the view's integer-or-`None` values: the left
operand if truthy, otherwise the right operand. -/
def pyOr (a b : Option Int) : Option Int :=
  if truthy a then a else b

/-- The two flags the blueprint view passes to `get_schema`. -/
structure ViewFlags where
  resolved : Option Int
  withRefs : Option Int

/-- Parameter handling of the blueprint view `get_schema` in
`views.py`: `resolved` from the `resolved` query parameter with the
`JSONSCHEMAS_RESOLVE_SCHEMA` configuration default, and `with_refs`
from the `refs` query parameter with the `JSONSCHEMAS_REPLACE_REFS`
default, `or`-ed with `resolved`. -/
def view_flags (qResolved qRefs : Option String) (cfgResolve cfgReplace : Option Int) :
    ViewFlags :=
  let r := flask_get_arg qResolved cfgResolve
  ⟨r, pyOr (flask_get_arg qRefs cfgReplace) r⟩

/-- Python `dict.setdefault`: insert the binding only when the key is
absent. -/
def setdefault {α : Type} (cfg : List (String × α)) (k : String) (v : α) :
    List (String × α) :=
  match lookupKV cfg k with
  | some _ => cfg
  | none => cfg ++ [(k, v)]

/-- `InvenioJSONSchemas.init_config`: for every attribute of the
`config` module whose name starts with `JSONSCHEMAS_`, call
`app.config.setdefault` with the module's value. `module` is the
attribute table of the `config` module, `appConfig` the application's
configuration dictionary. -/
def init_config {α : Type} (module : List (String × α))
    (appConfig : List (String × α)) : List (String × α) :=
  (module.filter (fun kv => kv.1.startsWith "JSONSCHEMAS_")).foldl
    (fun acc kv => setdefault acc kv.1 kv.2) appConfig

/-! Concrete instances used by the witnesses: the configuration of the
specification's end-to-end example, and small loader tables. -/

/-- The end-to-end example configuration of the specification:
`JSONSCHEMAS_ENDPOINT = "/schemas"`, `JSONSCHEMAS_HOST = "example.org"`,
`JSONSCHEMAS_URL_SCHEME = "https"`. -/
def exampleCfg : MapperCfg :=
  ⟨ "/schemas".data, "example.org".data, "https".data⟩

/-- A small schema document served by `demoApp`. -/
def demoSchema : Json :=
  .obj [("type", .str "object")]

/-- Application state whose loader knows exactly one document, the one
at the URL of path `records/record-v1.0.0.json`. -/
def demoApp : AppModel :=
  ⟨exampleCfg,
   [("https://example.org/schemas/records/record-v1.0.0.json", demoSchema)],
   id⟩

/-- A schema that references itself. -/
def selfSchema : Json :=
  .obj [("$ref", .str "https://example.org/schemas/self.json")]

/-- Loader table resolving the self-reference of `selfSchema` back to
`selfSchema`. -/
def selfTable : List (String × Json) :=
  [("https://example.org/schemas/self.json", selfSchema)]

/-- First half of a mutually-referencing pair of schemas. -/
def mutualA : Json :=
  .obj [("title", .str "A"), ("$ref", .str "urn:b")]

/-- Second half of a mutually-referencing pair of schemas. -/
def mutualB : Json :=
  .obj [("$ref", .str "urn:a")]

/-- Loader table on which `mutualA` and `mutualB` reference each other. -/
def mutualTable : List (String × Json) :=
  [("urn:a", mutualA), ("urn:b", mutualB)]

/-- An acyclic document whose single reference can be fully inlined. -/
def acyclicDoc : Json :=
  .obj [("properties", .obj [("title", .obj [("$ref", .str "urn:t")])])]

/-! Helper lemmas. -/

theorem splitNetloc_cons (r : List Char) :
    splitNetloc ('/' :: '/' :: r)
      = (r.takeWhile (fun c => c ≠ '/' && c ≠ '?' && c ≠ '#'),
         r.dropWhile (fun c => c ≠ '/' && c ≠ '?' && c ≠ '#')) := rfl

theorem isSchemeChar_ne_colon {c : Char} (h : isSchemeChar c = true) : c ≠ ':' := by
  rintro rfl
  exact absurd h (by decide)

theorem isSafeChar_ne_qmark {c : Char} (h : isSafeChar c = true) : c ≠ '?' := by
  rintro rfl
  exact absurd h (by decide)

theorem isSafeChar_ne_hash {c : Char} (h : isSafeChar c = true) : c ≠ '#' := by
  rintro rfl
  exact absurd h (by decide)

theorem urlQuote_of_safe {p : List Char} (h : p.all isSafeChar = true) :
    urlQuote p = p := by
  induction p with
  | nil => rfl
  | cons c rest ih =>
    simp only [List.all_cons, Bool.and_eq_true] at h
    have hrest := ih h.2
    simp only [urlQuote] at hrest ⊢
    simp [h.1, hrest]

theorem takeWhile_eq_self_of_all {α : Type} {p : α → Bool} {l : List α}
    (h : ∀ x ∈ l, p x = true) : l.takeWhile p = l := by
  induction l with
  | nil => rfl
  | cons x xs ih =>
    rw [List.takeWhile_cons, if_pos (h x (List.mem_cons_self _ _)),
      ih (fun y hy => h y (List.mem_cons_of_mem _ hy))]

theorem lookupKV_append {κ α : Type} [DecidableEq κ] (a b : List (κ × α)) (k : κ) :
    lookupKV (a ++ b) k
      = match lookupKV a k with
        | some v => some v
        | none => lookupKV b k := by
  induction a with
  | nil => simp [lookupKV]
  | cons kv rest ih =>
    obtain ⟨k1, v1⟩ := kv
    by_cases he : k1 = k
    · simp [lookupKV, he]
    · simp only [List.cons_append, lookupKV, if_neg he]
      exact ih

theorem lookupKV_setdefault_of_isSome {α : Type} {cfg : List (String × α)}
    {k k2 : String} {v : α} (h : (lookupKV cfg k).isSome) :
    lookupKV (setdefault cfg k2 v) k = lookupKV cfg k := by
  unfold setdefault
  cases hl : lookupKV cfg k2 with
  | some w => rfl
  | none =>
    rw [lookupKV_append]
    cases hk : lookupKV cfg k with
    | some w => rfl
    | none => rw [hk] at h; cases h

theorem lookupKV_setdefault_ne {α : Type} {cfg : List (String × α)}
    {k k2 : String} {v : α} (h : k2 ≠ k) :
    lookupKV (setdefault cfg k2 v) k = lookupKV cfg k := by
  unfold setdefault
  cases hl : lookupKV cfg k2 with
  | some w => rfl
  | none =>
    rw [lookupKV_append]
    cases hk : lookupKV cfg k with
    | some w => rfl
    | none => simp [lookupKV, h]

theorem foldl_setdefault_of_isSome {α : Type} (l : List (String × α))
    (acc : List (String × α)) (k : String) (h : (lookupKV acc k).isSome) :
    lookupKV (l.foldl (fun acc kv => setdefault acc kv.1 kv.2) acc) k
      = lookupKV acc k := by
  induction l generalizing acc with
  | nil => rfl
  | cons kv rest ih =>
    have hstep : lookupKV (setdefault acc kv.1 kv.2) k = lookupKV acc k :=
      lookupKV_setdefault_of_isSome h
    have h2 : (lookupKV (setdefault acc kv.1 kv.2) k).isSome := by
      rw [hstep]; exact h
    simp only [List.foldl_cons]
    rw [ih _ h2, hstep]

theorem foldl_setdefault_of_ne {α : Type} (l : List (String × α))
    (acc : List (String × α)) (k : String) (h : ∀ kv ∈ l, kv.1 ≠ k) :
    lookupKV (l.foldl (fun acc kv => setdefault acc kv.1 kv.2) acc) k
      = lookupKV acc k := by
  induction l generalizing acc with
  | nil => rfl
  | cons kv rest ih =>
    simp only [List.foldl_cons]
    rw [ih _ (fun x hx => h x (List.mem_cons_of_mem _ hx)),
        lookupKV_setdefault_ne (h kv (List.mem_cons_self _ _))]

/-! Claim theorems. -/

/-- C1: the claim demands that the second of two `get_schema` calls with
identical `(path, with_refs, resolved, principal)` must not invoke the
loader. In the code the `lru_cache`-decorated `wrapped` is defined
inside `get_schema`, so every call runs against a fresh empty cache:
`get_schema` is the pure value computed from an empty cache, both
identical calls denote this same value (so the returned documents are
structurally equal), and this theorem shows that value performs one
loader call — so the second identical call also loads, 1 ≠ 0 loader
calls, contradicting the claim. -/
theorem C1_repeated_call_still_loads :
    (get_schema demoApp "records/record-v1.0.0.json" false false "anonymous").1
      = .ok demoSchema
    ∧ (get_schema demoApp "records/record-v1.0.0.json" false false "anonymous").2 = 1
    ∧ (1 : Nat) ≠ 0 :=
  ⟨rfl, rfl, by decide⟩

/-- C2 counterexample: the path `"a b"` is accepted by the routing rule
(`[^/].*?` matches it), but building percent-encodes the space
(`a%20b`) while matching performs no percent-decoding, so the round
trip returns `some "a%20b"`, not `some "a b"`. -/
theorem C2_quoting_breaks_roundtrip :
    acceptedPath "a b".data = true
    ∧ url_to_path exampleCfg (path_to_url exampleCfg "a b".data)
        = .ok (some "a%20b".data)
    ∧ (Except.ok (some "a%20b".data) : Except PyErr (Option (List Char)))
        ≠ .ok (some "a b".data) := by
  refine ⟨?_, ?_, ?_⟩ <;> decide

/-- C2 (amended): for every path accepted by the routing rule all of
whose characters are URL-safe (alphanumeric, `-._~`, `/` or `:` — so
percent-encoding leaves the path unchanged), and every well-formed
configuration (nonempty scheme of scheme characters, host free of
`/?#` and of square brackets, endpoint starting with `/` and free of
`?#`), `url_to_path (path_to_url p)` parses without a `ValueError`
and returns `some p`. -/
theorem C2_roundtrip_safe_chars (cfg : MapperCfg) (p : List Char)
    (hs1 : cfg.scheme.isEmpty = false)
    (hs2 : cfg.scheme.all isSchemeChar = true)
    (hh : cfg.host.all
      (fun c => c ≠ '/' && c ≠ '?' && c ≠ '#' && c ≠ '[' && c ≠ ']') = true)
    (he1 : cfg.endpoint.head? = some '/')
    (he2 : cfg.endpoint.all (fun c => c ≠ '?' && c ≠ '#') = true)
    (hp : acceptedPath p = true)
    (hsafe : p.all isSafeChar = true) :
    url_to_path cfg (path_to_url cfg p) = .ok (some p) := by
  obtain ⟨e', he⟩ : ∃ e', cfg.endpoint = '/' :: e' := by
    cases hce : cfg.endpoint with
    | nil => rw [hce] at he1; cases he1
    | cons c cs =>
      rw [hce] at he1
      simp at he1
      exact ⟨cs, by rw [he1]⟩
  have hq : urlQuote p = p := urlQuote_of_safe hsafe
  have hurl : path_to_url cfg p
      = cfg.scheme ++ ':' :: '/' :: '/' :: (cfg.host ++ (cfg.endpoint ++ '/' :: p)) := by
    simp [path_to_url, hq]
  have hpre : (cfg.scheme ++ ':' :: '/' :: '/' ::
      (cfg.host ++ (cfg.endpoint ++ '/' :: p))).takeWhile (fun c => c ≠ ':')
      = cfg.scheme := by
    rw [List.takeWhile_append_of_pos (fun a ha => by
      simpa using isSchemeChar_ne_colon (List.all_eq_true.mp hs2 a ha))]
    simp [List.takeWhile_cons]
  have hc1 : (decide (cfg.scheme.length
        < (cfg.scheme ++ ':' :: '/' :: '/' ::
            (cfg.host ++ (cfg.endpoint ++ '/' :: p))).length)
      && !cfg.scheme.isEmpty && cfg.scheme.all isSchemeChar) = true := by
    simp only [Bool.and_eq_true, decide_eq_true_eq, Bool.not_eq_true', List.length_append,
      List.length_cons]
    refine ⟨⟨by omega, hs1⟩, hs2⟩
  have hsch : splitScheme (cfg.scheme ++ ':' :: '/' :: '/' ::
      (cfg.host ++ (cfg.endpoint ++ '/' :: p)))
      = (cfg.scheme, '/' :: '/' :: (cfg.host ++ (cfg.endpoint ++ '/' :: p))) := by
    simp only [splitScheme]
    rw [hpre, if_pos hc1]
    congr 1
    rw [show cfg.scheme ++ ':' :: '/' :: '/' :: (cfg.host ++ (cfg.endpoint ++ '/' :: p))
          = (cfg.scheme ++ [':']) ++ '/' :: '/' :: (cfg.host ++ (cfg.endpoint ++ '/' :: p))
        by simp]
    rw [List.drop_left' (by simp)]
  have hall : ∀ a ∈ cfg.host, ((fun c => c ≠ '/' && c ≠ '?' && c ≠ '#') a) = true := by
    intro a ha
    have h2 := List.all_eq_true.mp hh a ha
    simp only [Bool.and_eq_true, decide_eq_true_eq] at h2 ⊢
    exact h2.1.1
  have hlb : ¬ '[' ∈ cfg.host := by
    intro hmem
    have h2 := List.all_eq_true.mp hh _ hmem
    simp at h2
  have hrb : ¬ ']' ∈ cfg.host := by
    intro hmem
    have h2 := List.all_eq_true.mp hh _ hmem
    simp at h2
  have hnet : splitNetloc ('/' :: '/' :: (cfg.host ++ (cfg.endpoint ++ '/' :: p)))
      = (cfg.host, cfg.endpoint ++ '/' :: p) := by
    rw [splitNetloc_cons]
    congr 1
    · rw [List.takeWhile_append_of_pos hall, he, List.cons_append, List.takeWhile_cons]
      simp
    · rw [List.dropWhile_append_of_pos hall, he, List.cons_append, List.dropWhile_cons]
      simp
  have hpath : (cfg.endpoint ++ '/' :: p).takeWhile (fun c => c ≠ '?' && c ≠ '#')
      = cfg.endpoint ++ '/' :: p := by
    refine takeWhile_eq_self_of_all ?_
    intro x hx
    rcases List.mem_append.mp hx with hx | hx
    · exact List.all_eq_true.mp he2 x hx
    · rcases List.mem_cons.mp hx with rfl | hx
      · decide
      · have hs := List.all_eq_true.mp hsafe x hx
        simp [isSafeChar_ne_qmark hs, isSafeChar_ne_hash hs]
  have hsplit : urlsplitModel (path_to_url cfg p)
      = .ok ⟨cfg.scheme, cfg.host, cfg.endpoint ++ '/' :: p⟩ := by
    rw [hurl]
    simp only [urlsplitModel]
    rw [hsch]
    simp only
    rw [hnet]
    simp only
    have hfalse : ((decide ('[' ∈ cfg.host) && !decide (']' ∈ cfg.host))
        || (decide (']' ∈ cfg.host) && !decide ('[' ∈ cfg.host))) = false := by
      simp [hlb, hrb]
    rw [hfalse, if_neg Bool.false_ne_true, hpath]
  have htake : (cfg.endpoint ++ '/' :: p).take (cfg.endpoint.length + 1)
      = cfg.endpoint ++ ['/'] := by
    rw [List.take_append]
    simp
  have hdrop : (cfg.endpoint ++ '/' :: p).drop (cfg.endpoint.length + 1) = p := by
    rw [List.drop_append]
    simp
  have hmatch : matchRule cfg.endpoint (cfg.endpoint ++ '/' :: p) = some p := by
    simp only [matchRule]
    rw [if_pos htake, hdrop]
    simp only [acceptedPath, Bool.and_eq_true] at hp
    rw [if_pos]
    simp only [Bool.and_eq_true]
    exact ⟨hp.1, hp.2⟩
  simp only [url_to_path]
  rw [hsplit]
  simp [hmatch]

/-- C2 witness: the amended round trip at the specification's
end-to-end example configuration and path. -/
theorem C2_roundtrip_witness :
    url_to_path exampleCfg (path_to_url exampleCfg "records/record-v1.0.0.json".data)
      = .ok (some "records/record-v1.0.0.json".data) :=
  C2_roundtrip_safe_chars exampleCfg "records/record-v1.0.0.json".data (by decide)
    (by decide) (by decide) (by decide) (by decide) (by decide) (by decide)

/-- C3: when the loader knows no document for the requested path (it
raises `JSONSchemaNotFound`), `get_schema` does not surface
`JSONSchemaNotFound` to its caller: the `except JSONSchemaNotFound:
abort(404)` clause inside `get_schema` replaces it with the werkzeug
HTTP 404 exception, so the service layer — not the HTTP boundary —
maps the failure. (No crash and no wrong cached value: the outcome is
exactly `abort404`.) -/
theorem C3_not_found_becomes_abort404 :
    (get_schema ⟨exampleCfg, [], id⟩ "missing.json" false false "anonymous").1
      = .error .abort404
    ∧ (get_schema ⟨exampleCfg, [], id⟩ "missing.json" false false "anonymous").1
      ≠ .error .jsonSchemaNotFound := by
  refine ⟨rfl, ?_⟩
  rw [show (get_schema ⟨exampleCfg, [], id⟩ "missing.json" false false "anonymous").1
        = Except.error SchemaErr.abort404 from rfl]
  simp

/-- C4: in the view's parameter handling, a truthy `resolved` forces
`with_refs` on even when the caller passed `refs=0`; and when both
query parameters are absent, `resolved` is exactly the configured
default and `with_refs` is the configured default `or`-ed with
`resolved` (the same forcing applied to the defaults). -/
theorem C4_view_flags :
    (∀ (cfgResolve cfgReplace : Option Int) (qResolved : String),
        truthy (flask_get_arg (some qResolved) cfgResolve) = true →
        truthy (view_flags (some qResolved) (some "0") cfgResolve cfgReplace).withRefs
          = true)
    ∧ (∀ cfgResolve cfgReplace : Option Int,
        (view_flags none none cfgResolve cfgReplace).resolved = cfgResolve
        ∧ (view_flags none none cfgResolve cfgReplace).withRefs
            = pyOr cfgReplace cfgResolve) := by
  constructor
  · intro cr cw q h
    simpa [view_flags, flask_get_arg, parseInt, parseDigits, pyOr, truthy] using h
  · intro cr cw
    exact ⟨rfl, rfl⟩

/-- C4 witness: `resolved=1` with an explicit `refs=0` and no
configured defaults still turns `with_refs` on. -/
theorem C4_view_flags_witness :
    truthy (view_flags (some "1") (some "0") none none).withRefs = true :=
  C4_view_flags.1 none none "1" (by decide)

/-- C5 counterexample: the claim demands that `url_to_path` return an
absent result and never raise for every malformed URL. But the
`urlsplit` call sits outside the `try` in `url_to_path`, and the
`except` clause catches only werkzeug's `HTTPException`: for the
malformed URL `http://[evil/schemas/x` (an unpaired `[` in the
netloc), `urlsplit` raises `ValueError("Invalid IPv6 URL")`, which
propagates out of `url_to_path` — the outcome is the error, not
`None`. -/
theorem C5_unpaired_bracket_raises :
    url_to_path exampleCfg "http://[evil/schemas/x".data = .error .invalidIPv6Url
    ∧ url_to_path exampleCfg "http://[evil/schemas/x".data ≠ .ok none := by
  refine ⟨?_, ?_⟩ <;> decide

/-- C5 (amended): whenever `urlsplit` parses the URL without raising
(every netloc with balanced square brackets), `url_to_path` returns
without raising: `None` for every URL whose netloc differs from the
configured host — whatever the path looks like — and `None` whenever
the path portion does not match the routing rule. Only the
`ValueError` of `urlsplit` on an unpaired bracket in the netloc
escapes, since that call is outside the `try`. -/
theorem C5_none_when_parse_succeeds :
    ∀ (cfg : MapperCfg) (url : List Char) (parts : SplitURL),
      urlsplitModel url = .ok parts →
      ((parts.netloc ≠ cfg.host → url_to_path cfg url = .ok none)
       ∧ (matchRule cfg.endpoint parts.upath = none →
           url_to_path cfg url = .ok none)) := by
  intro cfg url parts hok
  constructor <;> intro h
  · by_cases he : parts.netloc = cfg.host
    · exact absurd he h
    · simp [url_to_path, hok, he]
  · by_cases he : parts.netloc = cfg.host
    · simp [url_to_path, hok, he, h]
    · simp [url_to_path, hok, he]

/-- C5 witness: a URL on a foreign host with the correct path shape
resolves to `None` without raising. -/
theorem C5_none_witness :
    url_to_path exampleCfg
      "https://evil.example/schemas/records/record-v1.0.0.json".data = .ok none :=
  (C5_none_when_parse_succeeds exampleCfg
    "https://evil.example/schemas/records/record-v1.0.0.json".data
    ⟨ "https".data, "evil.example".data, "/schemas/records/record-v1.0.0.json".data⟩
    (by decide)).1 (by decide)

/-- C6: inline-mode resolution terminates on cyclic reference graphs —
`replaceRefs` is a total function (its recursion is well-founded, the
measure being the loader URLs not yet on the active expansion path) —
and the cyclic edge is left as the unresolved reference marker: the
self-referencing schema and the mutually-referencing pair both come
back with their `$ref` markers intact, while an acyclic reference is
genuinely inlined (so the pass is not the identity). -/
theorem C6_cycle_termination :
    replaceRefs selfTable [] selfSchema = selfSchema
    ∧ replaceRefs mutualTable [] mutualA = mutualA
    ∧ replaceRefs [("urn:t", .str "titledef")] [] acyclicDoc
        = .obj [("properties", .obj [("title", .str "titledef")])] := by
  refine ⟨?_, ?_, ?_⟩
  · simp [replaceRefs, refOf, lookupKV, selfSchema, selfTable]
  · simp [replaceRefs, refOf, lookupKV, mutualA, mutualB, mutualTable]
  · simp [replaceRefs, refOf, lookupKV, acyclicDoc]

/-- C7: with endpoint `/schemas`, host `example.org` and scheme
`https`, `path_to_url` maps `records/record-v1.0.0.json` to
`https://example.org/schemas/records/record-v1.0.0.json`. -/
theorem C7_end_to_end_url :
    path_to_url exampleCfg "records/record-v1.0.0.json".data
      = "https://example.org/schemas/records/record-v1.0.0.json".data := by
  decide

/-- C8: every `get_schema` invocation builds the `lru_cache`-decorated
`wrapped` anew, so it runs against the empty cache (first conjunct, by
definition of `get_schema`), and consequently every call — for any
application state, path, flags and user — performs exactly one loader
call: no resolved result is ever reused across two `get_schema`
calls. -/
theorem C8_cache_fresh_each_call :
    ∀ (app : AppModel) (path : String) (withRefs resolved : Bool) (user : String),
      get_schema app path withRefs resolved user
        = ((wrapped app [] ⟨path, withRefs, resolved, user⟩).result,
           (wrapped app [] ⟨path, withRefs, resolved, user⟩).loaderCalls)
      ∧ (get_schema app path withRefs resolved user).2 = 1 := by
  intro app path wr rs u
  refine ⟨rfl, ?_⟩
  show (wrapped app [] ⟨path, wr, rs, u⟩).loaderCalls = 1
  unfold wrapped
  cases h : lookupKV app.loaderTable (path_to_url_s app.cfg path) <;>
    simp [lookupKV, h]

/-- C9: `init_config` only ever calls `setdefault`, so a key already
present in the application configuration keeps its value, and a key
that does not start with `JSONSCHEMAS_` is left exactly as it was
(present or absent) — the module defaults only fill in absent
`JSONSCHEMAS_`-prefixed keys. -/
theorem C9_init_config_frame :
    ∀ (α : Type) (module appConfig : List (String × α)) (k : String),
      ((lookupKV appConfig k).isSome →
        lookupKV (init_config module appConfig) k = lookupKV appConfig k)
      ∧ (k.startsWith "JSONSCHEMAS_" = false →
        lookupKV (init_config module appConfig) k = lookupKV appConfig k) := by
  intro α module appConfig k
  constructor
  · intro h
    exact foldl_setdefault_of_isSome _ _ _ h
  · intro h
    refine foldl_setdefault_of_ne _ _ _ ?_
    intro kv hkv hk
    have := List.of_mem_filter hkv
    rw [hk, h] at this
    cases this

/-- C9 witness: a pre-existing `JSONSCHEMAS_HOST` survives
`init_config` with the module default for the same key. -/
theorem C9_init_config_witness :
    lookupKV (init_config [("JSONSCHEMAS_HOST", "localhost")]
        [("JSONSCHEMAS_HOST", "example.org"), ("OTHER", "x")]) "JSONSCHEMAS_HOST"
      = lookupKV [("JSONSCHEMAS_HOST", "example.org"), ("OTHER", "x")]
          "JSONSCHEMAS_HOST" :=
  (C9_init_config_frame String _ _ _).1 (by decide)

/-- C10: `list_schemas` returns the empty list for every application
state. -/
theorem C10_list_schemas_empty : ∀ app : AppModel, list_schemas app = [] :=
  fun _ => rfl

end InvenioJsonschemas
